import Mathlib

/-!
Shallow embedding of the stale-lease watchdog of the `azureeventhub` input
(`x-pack/filebeat/input/azureeventhub/{eph.go, lease.go}`).

Timestamps and durations are modelled as `Int` (nanoseconds, as in Go's
`time.Time`/`time.Duration`); `t1.Before(t2)` is `t1 < t2`.  A Go nil
pointer is `Option.none`; reading a field through a nil pointer is a
runtime fault, modelled by propagating `none`.  Fallible store calls are
`Except`.
-/

namespace AzureEventHub

/-- `persist.Checkpoint` — the checkpoint nested inside a stored lease
record (`offset`, `sequenceNumber`, `enqueueTime`). -/
structure Checkpoint where
  offset : String
  sequenceNumber : Int
  enqueueTime : Int
deriving Repr, DecidableEq

/-- The embedded `eph.Lease` inside `StorageLease` (lease.go line 29);
only its `partitionID` (returned by `GetPartitionID()`) matters here. -/
structure Lease where
  partitionID : String
deriving Repr, DecidableEq

/-- `azblob.LeaseStateType`. -/
inductive LeaseStateType where
  | available
  | leased
  | expired
  | breaking
  | broken
deriving Repr, DecidableEq

/-- `StorageLease` (lease.go lines 28–33).  `Checkpoint` is a pointer
(`*persist.Checkpoint`) and may be nil, hence `Option`. -/
structure StorageLease where
  lease : Lease
  checkpoint : Option Checkpoint
  state : LeaseStateType
  token : String
deriving Repr, DecidableEq

/-- Errors a blob download (`getLease`) can fail with, per spec §4.1/§7. -/
inductive StoreError where
  | notFound
  | transientIOError
  | deserialization
deriving Repr, DecidableEq

/-- Errors a blob `ReleaseLease` can fail with, per spec §4.1/§7. -/
inductive ReleaseError where
  | tokenInvalid
  | transientIOError
deriving Repr, DecidableEq

/-- The external processor host / scheduler, modelled from spec §6 as a
read-only capability with its two query methods: `PartitionIDsBeingProcessed`
(`currentlyProcessingPartitionIDs()`) and `GetPartitionIDs`
(`assignedPartitionIDs()` — the partition IDs this consumer currently
holds, per spec §6). -/
structure Processor where
  partitionIDsBeingProcessed : List String
  getPartitionIDs : List String
deriving Repr, DecidableEq

/-- `LeaseFixer` (lease.go lines 17–26).  The blob container is modelled as
the two operations the code performs on it: a keyed download returning a
deserialized record and a keyed conditional release.  The source's
blob-path-prefix field is never assigned (always `""`), so blob keys
coincide with partition IDs. -/
structure LeaseFixer where
  processor : Processor
  blobDownload : String → Except StoreError StorageLease
  blobRelease : String → String → Except ReleaseError Unit

/-- `getLease` (lease.go lines 76–83): download and deserialize one
partition's record. -/
def getLease (sl : LeaseFixer) (partitionID : String) : Except StoreError StorageLease :=
  sl.blobDownload partitionID

/-- The loop body of `GetLeases` (lease.go lines 58–66): fetch each
partition's lease in order; the first failing fetch aborts the whole
snapshot with that error. -/
def GetLeasesAux (sl : LeaseFixer) : List String → Except StoreError (List StorageLease)
  | [] => .ok []
  | pid :: rest =>
    match getLease sl pid with
    | .error e => .error e
    | .ok lease =>
      match GetLeasesAux sl rest with
      | .error e => .error e
      | .ok ls => .ok (lease :: ls)

/-- `GetLeases` (lease.go lines 56–67): snapshot the lease records of all
partition IDs reported by the processor's `GetPartitionIDs()`. -/
def GetLeases (sl : LeaseFixer) : Except StoreError (List StorageLease) :=
  GetLeasesAux sl sl.processor.getPartitionIDs

/-- The partition IDs `GetLeases` actually downloads: the reported IDs up
to and including the first failing one (the loop stops there). -/
def downloadedIDs (sl : LeaseFixer) : List String → List String
  | [] => []
  | pid :: rest =>
    match getLease sl pid with
    | .error _ => [pid]
    | .ok _ => pid :: downloadedIDs sl rest

/-- `ReleaseLease` (lease.go lines 70–74): conditional release keyed by
`(partitionID, token)`. -/
def ReleaseLease (sl : LeaseFixer) (lease : StorageLease) : Except ReleaseError Unit :=
  sl.blobRelease lease.lease.partitionID lease.token

/-- The staleness comparison at eph.go line 143 with the checkpoint
dereferenced: `cp.EnqueueTime.Before(now.Add(-window))`, i.e.
`enqueueTime < now - window`.  The source hardcodes
`window = 30 * time.Minute`; it is a parameter here. -/
def checkpointStale (cp : Checkpoint) (now window : Int) : Bool :=
  cp.enqueueTime < now - window

/-- The full staleness evaluation at eph.go line 143:
`lease.Checkpoint.EnqueueTime.Before(...)`.  `lease.Checkpoint` is a
pointer; when it is nil the field access is a nil-pointer dereference and
the goroutine panics, modelled as `none`. -/
def leaseStaleCheck (lease : StorageLease) (now window : Int) : Option Bool :=
  match lease.checkpoint with
  | none => none
  | some cp => some (checkpointStale cp now window)

/-- `30 * time.Minute` in nanoseconds (eph.go line 143). -/
def stalenessWindowNs : Int := 1800000000000

/-- The idle-tick threshold compared against at eph.go line 133. -/
def idleTickThreshold : Nat := 60

/-- The counter-update step (eph.go lines 127–132): an idle observation
(`len(PartitionIDsBeingProcessed()) == 0`) increments `zeroCount`; any
activity clears it. -/
def updateZeroCount (prior : Nat) (beingProcessed : List String) : Nat :=
  if beingProcessed.length = 0 then prior + 1 else 0

/-- Outcome of the release loop (eph.go lines 140–150). -/
inductive PassResult where
  /-- The loop ran to completion; `lastErr` is the error of the last
  failing `ReleaseLease` call (Go's `lastErr`, `nil` if none failed) and
  `released` lists, in order, the partitions a release call was issued
  for. -/
  | ok (lastErr : Option ReleaseError) (released : List String)
  /-- A lease with a nil `Checkpoint` was dereferenced at eph.go line 143
  and the goroutine panicked; `released` lists the release calls issued
  before the fault. -/
  | nilDeref (released : List String)
deriving Repr, DecidableEq

/-- The release loop over a lease snapshot (eph.go lines 140–150): each
lease whose checkpoint is stale gets a `ReleaseLease` call; a failing
release overwrites `lastErr` and the loop continues. -/
def releasePass (sl : LeaseFixer) (now : Int) : List StorageLease → PassResult
  | [] => .ok none []
  | lease :: rest =>
    match leaseStaleCheck lease now stalenessWindowNs with
    | none => .nilDeref []
    | some false =>
      releasePass sl now rest
    | some true =>
      let pid := lease.lease.partitionID
      match ReleaseLease sl lease with
      | .ok _ =>
        match releasePass sl now rest with
        | .ok lastErr released => .ok lastErr (pid :: released)
        | .nilDeref released => .nilDeref (pid :: released)
      | .error e =>
        match releasePass sl now rest with
        | .ok lastErr released => .ok (lastErr.getD e) (pid :: released)
        | .nilDeref released => .nilDeref (pid :: released)

/-- Outcome of one iteration of the watchdog loop body. -/
inductive TickOutcome where
  /-- The iteration finished: the counter's value at the end of the
  iteration, whether a store scan (`GetLeases`) ran, and the release calls
  issued. -/
  | normal (zeroCount : Nat) (didScan : Bool) (released : List String)
  /-- The iteration panicked on a nil-checkpoint dereference during the
  release loop. -/
  | panicked (released : List String)
deriving Repr, DecidableEq

/-- Whether the iteration performed a store scan (a nil-deref panic can
only happen inside a scan). -/
def TickOutcome.didScan : TickOutcome → Bool
  | .normal _ d _ => d
  | .panicked _ => true

/-- The release calls the iteration issued. -/
def TickOutcome.released : TickOutcome → List String
  | .normal _ _ r => r
  | .panicked r => r

/-- One iteration of the watchdog loop body (eph.go lines 126–157, the
`default` branch): update the idle counter from the scheduler's
being-processed signal; when it strictly exceeds the threshold, snapshot
the leases and run the release pass; reset the counter only if the pass
completed with `lastErr == nil`; a failing `GetLeases` is only logged. -/
def watchdogTick (sl : LeaseFixer) (now : Int) (zeroCount : Nat) : TickOutcome :=
  let zc := updateZeroCount zeroCount sl.processor.partitionIDsBeingProcessed
  if zc > idleTickThreshold then
    match GetLeases sl with
    | .error _ => .normal zc true []
    | .ok leases =>
      match releasePass sl now leases with
      | .ok lastErr released =>
        .normal (if lastErr = none then 0 else zc) true released
      | .nilDeref released => .panicked released
  else
    .normal zc false []

/-- The observable effects of the handler callback's failure path
(eph.go lines 78–93). -/
inductive HandlerEffect where
  /-- `a.log.Error(onEventErr.Error())` — error-severity log. -/
  | logErrorSeverity
  /-- `a.Stop()` — initiate consumer shutdown. -/
  | stopConsumer
  /-- `cancelWatcher()` — cancel the watchdog's governing context. -/
  | cancelWatchdog
  /-- `panic(onEventErr)` — terminate the process. -/
  | terminateProcess
deriving Repr, DecidableEq

/-- The handler callback registered at eph.go lines 77–94: given the
result of `a.processEvents(e, "")`, it returns the effects performed, in
program order, and the handler's return value (`onEventErr`). -/
def handlerEffects (processEventsOk : Bool) : List HandlerEffect × Option String :=
  if processEventsOk then
    ([], none)
  else
    ([.logErrorSeverity, .stopConsumer, .cancelWatchdog, .terminateProcess],
     some "OnEvent function returned false. Stopping input worker")

/-- Control position inside the watchdog goroutine (eph.go lines 120–160). -/
inductive Phase where
  /-- The `select` at the top of the loop: the only point observing
  `watcherCtx.Done()`. -/
  | check
  /-- The `default` branch: counter update and possible scan/release pass
  (the only phase issuing store calls). -/
  | body
  /-- Inside `time.Sleep(1 * time.Second)` with `k` time units left; the
  sleep does not observe cancellation. -/
  | sleeping (k : Nat)
  /-- The goroutine returned (or panicked): no further steps, no further
  store calls. -/
  | halted
deriving Repr, DecidableEq

/-- State of the watchdog goroutine between small steps. `cancelled`
records whether `watcherCtx` has been cancelled (set externally, e.g. by
the fatal-handler policy; never unset).  `storeCalls` counts the store
calls issued so far. -/
structure LoopState where
  phase : Phase
  cancelled : Bool
  zeroCount : Nat
  storeCalls : Nat
deriving Repr, DecidableEq

/-- Number of store calls one loop-body iteration issues: the blob
downloads performed by `GetLeases` (stopping at the first failure) plus
one release call per stale lease processed. -/
def tickStoreCalls (sl : LeaseFixer) (now : Int) (zeroCount : Nat) : Nat :=
  let t := watchdogTick sl now zeroCount
  if t.didScan then
    (downloadedIDs sl sl.processor.getPartitionIDs).length + t.released.length
  else 0

/-- One small step of the watchdog goroutine (eph.go lines 122–158), with
the poll interval lasting `pollTicks + 1` steps.  The `check` phase is the
`select`: it exits iff `cancelled` is set.  The `sleeping` phase models
`time.Sleep`, which runs to completion regardless of cancellation. -/
def loopStep (sl : LeaseFixer) (now : Int) (pollTicks : Nat) (s : LoopState) : LoopState :=
  match s.phase with
  | .halted => s
  | .check => if s.cancelled then { s with phase := .halted } else { s with phase := .body }
  | .body =>
    match watchdogTick sl now s.zeroCount with
    | .normal zc _ _ =>
      { s with phase := .sleeping pollTicks, zeroCount := zc,
               storeCalls := s.storeCalls + tickStoreCalls sl now s.zeroCount }
    | .panicked _ =>
      { s with phase := .halted,
               storeCalls := s.storeCalls + tickStoreCalls sl now s.zeroCount }
  | .sleeping 0 => { s with phase := .check }
  | .sleeping (k + 1) => { s with phase := .sleeping k }

/-- A two-partition fixer whose downloads all succeed and whose assigned
set (["0", "1"]) differs from its being-processed set (["9"]); concrete
input for witnesses. -/
def okFixer : LeaseFixer :=
  ⟨⟨["9"], ["0", "1"]⟩,
   fun p => .ok ⟨⟨p⟩, some ⟨"o", 1, 0⟩, .leased, "t"⟩,
   fun _ _ => .ok ()⟩

/-- A fixer with two partitions where partition "0" reads fine and the
read of partition "1" fails with a transient store error. -/
def c2Fixer : LeaseFixer :=
  ⟨⟨[], ["0", "1"]⟩,
   fun p => if p = "0" then .ok ⟨⟨"0"⟩, some ⟨"o", 1, 0⟩, .leased, "t"⟩
            else .error .transientIOError,
   fun _ _ => .ok ()⟩

/-- A single stale lease for partition "0": its checkpoint was enqueued at
time 0, far older than the staleness window. -/
def staleLease : StorageLease := ⟨⟨"0"⟩, some ⟨"o", 1, 0⟩, .leased, "tok"⟩

/-- A one-partition fixer whose only lease is `staleLease` and whose
release calls all return the given outcome. -/
def c3Fixer (rel : Except ReleaseError Unit) : LeaseFixer :=
  ⟨⟨[], ["0"]⟩, fun _ => .ok staleLease, fun _ _ => rel⟩

/-- A fixer for an idle consumer: nothing being processed, nothing
assigned. -/
def idleFixer : LeaseFixer := ⟨⟨[], []⟩, fun _ => .error .notFound, fun _ _ => .ok ()⟩

/-! ### Theorems -/

/-- C1: the claim states that a lease record with no checkpoint is
classified as not stale and that evaluating it never faults.  On the
code, `lease.Checkpoint` is a nil pointer for such a record and eph.go
line 143 dereferences it: the evaluation faults (produces no
classification, modelled `none`), and a release pass reaching such a
record panics, for every `now` and every `window`. -/
theorem c1_nil_checkpoint_faults (pid tok : String) (st : LeaseStateType) (now window : Int) :
    leaseStaleCheck ⟨⟨pid⟩, none, st, tok⟩ now window = none ∧
      ∀ (sl : LeaseFixer) (rest : List StorageLease),
        releasePass sl now (⟨⟨pid⟩, none, st, tok⟩ :: rest) = PassResult.nilDeref [] := by
  constructor
  · rfl
  · intro sl rest
    rfl

/-- C4: for a record carrying a checkpoint, the staleness evaluation is
`some true` iff `now - enqueueTime > window` (strictly); a checkpoint
enqueued exactly at `now` is not stale for any positive window; one
enqueued at `now - window - ε` with `ε > 0` is stale. -/
theorem c4_staleness_iff (lease : StorageLease) (cp : Checkpoint) (now window : Int)
    (h : lease.checkpoint = some cp) :
    (leaseStaleCheck lease now window = some true ↔ now - cp.enqueueTime > window) ∧
      (cp.enqueueTime = now → 0 < window → leaseStaleCheck lease now window = some false) ∧
      (∀ ε : Int, 0 < ε → cp.enqueueTime = now - window - ε →
        leaseStaleCheck lease now window = some true) := by
  refine ⟨?_, ?_, ?_⟩
  · simp only [leaseStaleCheck, h, checkpointStale, Option.some.injEq, decide_eq_true_eq]
    omega
  · intro he hw
    simp only [leaseStaleCheck, h, checkpointStale, Option.some.injEq, decide_eq_false_iff_not]
    omega
  · intro ε hε he
    simp only [leaseStaleCheck, h, checkpointStale, Option.some.injEq, decide_eq_true_eq]
    omega

/-- Witness for C4 at a concrete record: enqueueTime 0, now 10, window 5. -/
theorem c4_witness :
    (leaseStaleCheck ⟨⟨"0"⟩, some ⟨"o", 1, 0⟩, .leased, "t"⟩ 10 5 = some true ↔
      (10 : Int) - (0 : Int) > 5) :=
  (c4_staleness_iff ⟨⟨"0"⟩, some ⟨"o", 1, 0⟩, .leased, "t"⟩ ⟨"o", 1, 0⟩ 10 5 rfl).1

/-- C6: any tick observing at least one partition being processed drives
the counter to 0 from any prior value (and performs no scan and no
release); a tick observing zero partitions being processed increments the
counter by exactly one in the counter-update step (eph.go lines 127–132),
which feeds the scan decision. -/
theorem c6_counter_update (sl : LeaseFixer) (now : Int) (prior : Nat) :
    (sl.processor.partitionIDsBeingProcessed ≠ [] →
      watchdogTick sl now prior = .normal 0 false []) ∧
    (sl.processor.partitionIDsBeingProcessed = [] →
      updateZeroCount prior sl.processor.partitionIDsBeingProcessed = prior + 1) := by
  constructor
  · intro h
    have hlen : ¬ sl.processor.partitionIDsBeingProcessed.length = 0 := by
      simpa using h
    simp [watchdogTick, updateZeroCount, hlen, idleTickThreshold]
  · intro h
    simp [updateZeroCount, h]

/-- Witness for C6: an active tick clears a counter of 41; an idle
observation turns 41 into 42. -/
theorem c6_witness :
    watchdogTick ⟨⟨["0"], []⟩, fun _ => .error .notFound, fun _ _ => .ok ()⟩ 0 41 =
      .normal 0 false [] ∧
    updateZeroCount 41 ([] : List String) = 42 := by
  constructor
  · exact (c6_counter_update ⟨⟨["0"], []⟩, fun _ => .error .notFound, fun _ _ => .ok ()⟩ 0 41).1
      (by simp)
  · exact (c6_counter_update ⟨⟨[], []⟩, fun _ => .error .notFound, fun _ _ => .ok ()⟩ 0 41).2 rfl

/-- C9: a failed callback performs, in program order, the error-severity
log, the consumer stop, the watchdog-context cancellation and the process
termination, returning the fatal error; a successful callback performs
none of these and returns nil. -/
theorem c9_fatal_handler_policy :
    handlerEffects false =
      ([.logErrorSeverity, .stopConsumer, .cancelWatchdog, .terminateProcess],
       some "OnEvent function returned false. Stopping input worker") ∧
    handlerEffects true = ([], none) :=
  ⟨rfl, rfl⟩

/-- The snapshot loop, when it succeeds, returns one record per requested
partition ID, positionally: the i-th record is the download of the i-th
ID. -/
theorem getLeasesAux_spec (sl : LeaseFixer) (pids : List String) (ls : List StorageLease)
    (h : GetLeasesAux sl pids = .ok ls) :
    ls.length = pids.length ∧
      ∀ (i : Nat) (hi : i < pids.length) (hi2 : i < ls.length),
        getLease sl (pids.get ⟨i, hi⟩) = .ok (ls.get ⟨i, hi2⟩) := by
  induction pids generalizing ls with
  | nil =>
    simp only [GetLeasesAux, Except.ok.injEq] at h
    subst h
    simp
  | cons p rest ih =>
    unfold GetLeasesAux at h
    cases hp : getLease sl p with
    | error e => rw [hp] at h; exact absurd h (by simp)
    | ok lease =>
      rw [hp] at h
      cases hr : GetLeasesAux sl rest with
      | error e => rw [hr] at h; exact absurd h (by simp)
      | ok tail =>
        rw [hr] at h
        simp only [Except.ok.injEq] at h
        subst h
        obtain ⟨hlen, hidx⟩ := ih tail hr
        refine ⟨by simp [hlen], ?_⟩
        intro i hi hi2
        cases i with
        | zero => simpa using hp
        | succ j =>
          have hj : j < rest.length := by simpa using hi
          have hj2 : j < tail.length := by simpa using hi2
          simpa using hidx j hj hj2

/-- C10: a successful snapshot returns exactly one lease record per
partition ID reported by the scheduler, in the same order — the i-th
result is the record fetched for the i-th reported ID, with no missing
entries. -/
theorem c10_snapshot_shape (sl : LeaseFixer) (ls : List StorageLease)
    (h : GetLeases sl = .ok ls) :
    ls.length = sl.processor.getPartitionIDs.length ∧
      ∀ (i : Nat) (hi : i < sl.processor.getPartitionIDs.length) (hi2 : i < ls.length),
        getLease sl (sl.processor.getPartitionIDs.get ⟨i, hi⟩) = .ok (ls.get ⟨i, hi2⟩) :=
  getLeasesAux_spec sl sl.processor.getPartitionIDs ls h

/-- Witness for C10 on `okFixer`: the snapshot has one record per reported
ID and the head record is the download of partition "0". -/
theorem c10_witness :
    ([⟨⟨"0"⟩, some ⟨"o", 1, 0⟩, .leased, "t"⟩,
      ⟨⟨"1"⟩, some ⟨"o", 1, 0⟩, .leased, "t"⟩] : List StorageLease).length =
      okFixer.processor.getPartitionIDs.length ∧
    getLease okFixer (okFixer.processor.getPartitionIDs.get ⟨0, by decide⟩) =
      .ok (([⟨⟨"0"⟩, some ⟨"o", 1, 0⟩, .leased, "t"⟩,
             ⟨⟨"1"⟩, some ⟨"o", 1, 0⟩, .leased, "t"⟩] : List StorageLease).get ⟨0, by decide⟩) := by
  have h := c10_snapshot_shape okFixer
    [⟨⟨"0"⟩, some ⟨"o", 1, 0⟩, .leased, "t"⟩, ⟨⟨"1"⟩, some ⟨"o", 1, 0⟩, .leased, "t"⟩] rfl
  exact ⟨h.1, h.2 0 (by decide) (by decide)⟩

/-- A successful snapshot downloads every requested ID: the download trace
is the full requested list. -/
theorem downloadedIDs_of_ok (sl : LeaseFixer) (pids : List String) (ls : List StorageLease)
    (h : GetLeasesAux sl pids = .ok ls) :
    downloadedIDs sl pids = pids := by
  induction pids generalizing ls with
  | nil => rfl
  | cons p rest ih =>
    unfold GetLeasesAux at h
    cases hp : getLease sl p with
    | error e => rw [hp] at h; exact absurd h (by simp)
    | ok lease =>
      rw [hp] at h
      cases hr : GetLeasesAux sl rest with
      | error e => rw [hr] at h; exact absurd h (by simp)
      | ok tail =>
        unfold downloadedIDs
        rw [hp, ih tail hr]

/-- The snapshot loop reads only the blob store: it is unaffected by every
other component of the fixer, in particular by the being-processed set. -/
theorem getLeasesAux_congr (sl1 sl2 : LeaseFixer) (hd : sl1.blobDownload = sl2.blobDownload)
    (pids : List String) :
    GetLeasesAux sl1 pids = GetLeasesAux sl2 pids := by
  induction pids with
  | nil => rfl
  | cons p rest ih => simp only [GetLeasesAux, getLease, hd, ih]

/-- C7: the scan fetches the lease records of the partition IDs the
scheduler reports as assigned (`GetPartitionIDs()`, spec §6's
`assignedPartitionIDs`), not the currently-being-processed set: a
successful snapshot downloads exactly the assigned list, and the snapshot
result is invariant under arbitrary changes to
`PartitionIDsBeingProcessed()`. -/
theorem c7_scan_uses_assigned (sl : LeaseFixer) :
    (∀ ls, GetLeases sl = .ok ls →
      downloadedIDs sl sl.processor.getPartitionIDs = sl.processor.getPartitionIDs) ∧
    (∀ bp : List String,
      GetLeases { sl with processor := { sl.processor with partitionIDsBeingProcessed := bp } } =
        GetLeases sl) := by
  constructor
  · intro ls h
    exact downloadedIDs_of_ok sl sl.processor.getPartitionIDs ls h
  · intro bp
    unfold GetLeases
    exact getLeasesAux_congr
      { sl with processor := { sl.processor with partitionIDsBeingProcessed := bp } } sl rfl _

/-- Witness for C7 on `okFixer`, whose assigned set (["0", "1"]) differs
from its being-processed set (["9"]): the scan downloads exactly the
assigned IDs, and replacing the being-processed set by [] leaves the
snapshot unchanged. -/
theorem c7_witness :
    downloadedIDs okFixer okFixer.processor.getPartitionIDs = ["0", "1"] ∧
    GetLeases { okFixer with
        processor := { okFixer.processor with partitionIDsBeingProcessed := [] } } =
      GetLeases okFixer := by
  constructor
  · exact (c7_scan_uses_assigned okFixer).1
      [⟨⟨"0"⟩, some ⟨"o", 1, 0⟩, .leased, "t"⟩, ⟨⟨"1"⟩, some ⟨"o", 1, 0⟩, .leased, "t"⟩] rfl
  · exact (c7_scan_uses_assigned okFixer).2 []

/-- The snapshot loop returns the first download error it meets, with no
records, whatever succeeded before it. -/
theorem getLeasesAux_error (sl : LeaseFixer) (xs : List String) (p : String)
    (ys : List String) (e : StoreError)
    (hok : ∀ q ∈ xs, ∃ r, getLease sl q = .ok r)
    (hp : getLease sl p = .error e) :
    GetLeasesAux sl (xs ++ p :: ys) = .error e := by
  induction xs with
  | nil =>
    rw [List.nil_append]
    simp only [GetLeasesAux, hp]
  | cons q rest ih =>
    obtain ⟨r, hr⟩ := hok q (by simp)
    have htail : GetLeasesAux sl (rest ++ p :: ys) = .error e :=
      ih (fun x hx => hok x (by simp [hx]))
    rw [List.cons_append]
    unfold GetLeasesAux
    rw [hr, htail]

/-- C2 fails on the code: on `c2Fixer`, partition "0" downloads
successfully, yet `GetLeases` returns only the error of partition "1" —
the snapshot as a whole fails, there is no per-partition outcome, and the
record that was read is discarded instead of being handed to the
watchdog. -/
theorem c2_counterexample :
    getLease c2Fixer "0" = .ok ⟨⟨"0"⟩, some ⟨"o", 1, 0⟩, .leased, "t"⟩ ∧
    GetLeases c2Fixer = .error .transientIOError := by
  exact ⟨rfl, rfl⟩

/-- C2 amended: a failing read for any partition aborts the whole
snapshot — `GetLeases` returns the first error and no records — and the
watchdog pass that triggered the scan merely logs the error: it issues no
release and does not reset the idle counter. -/
theorem c2_amended_abort (sl : LeaseFixer) (xs : List String) (p : String)
    (ys : List String) (e : StoreError) (now : Int) (prior : Nat)
    (hids : sl.processor.getPartitionIDs = xs ++ p :: ys)
    (hok : ∀ q ∈ xs, ∃ r, getLease sl q = .ok r)
    (hp : getLease sl p = .error e)
    (hbp : sl.processor.partitionIDsBeingProcessed = [])
    (hprior : idleTickThreshold ≤ prior) :
    GetLeases sl = .error e ∧
      watchdogTick sl now prior = .normal (prior + 1) true [] := by
  have hge : GetLeases sl = .error e := by
    unfold GetLeases
    rw [hids]
    exact getLeasesAux_error sl xs p ys e hok hp
  refine ⟨hge, ?_⟩
  have hzc : updateZeroCount prior sl.processor.partitionIDsBeingProcessed = prior + 1 := by
    simp [updateZeroCount, hbp]
  have hgt : prior + 1 > idleTickThreshold := by omega
  unfold watchdogTick
  rw [hzc, if_pos hgt, hge]

/-- Witness for C2's amended statement on `c2Fixer` with prior count 60:
the snapshot fails wholesale and the tick ends at 61 with no releases. -/
theorem c2_amended_witness :
    GetLeases c2Fixer = .error .transientIOError ∧
      watchdogTick c2Fixer 0 60 = .normal 61 true [] := by
  exact c2_amended_abort c2Fixer ["0"] "1" [] .transientIOError 0 60 rfl
    (by
      intro q hq
      simp only [List.mem_singleton] at hq
      subst hq
      exact ⟨⟨⟨"0"⟩, some ⟨"o", 1, 0⟩, .leased, "t"⟩, rfl⟩)
    rfl rfl (by decide)

/-- C3 fails on the code: a release pass whose only release fails with
`TokenInvalidError` leaves `lastErr` set, so the idle counter is NOT
reset (it stays at 61, not 0) and the pass counts as erroneous for
re-arming — exactly as with `TransientIOError`; the code never
distinguishes the two. -/
theorem c3_counterexample :
    watchdogTick (c3Fixer (.error .tokenInvalid)) (stalenessWindowNs + 1) 60 =
      .normal 61 true ["0"] ∧
    (61 : Nat) ≠ 0 := by
  exact ⟨rfl, by decide⟩

/-- C3 amended: any release failure — `TokenInvalidError` and
`TransientIOError` alike — sets the pass's `lastErr`, prevents the idle
counter reset and makes the pass erroneous for re-arming; the code treats
both error kinds identically. -/
theorem c3_any_release_error_blocks_reset (sl : LeaseFixer) (now : Int) (prior : Nat)
    (leases : List StorageLease) (e : ReleaseError) (rel : List String)
    (hbp : sl.processor.partitionIDsBeingProcessed = [])
    (hprior : idleTickThreshold ≤ prior)
    (hg : GetLeases sl = .ok leases)
    (hpass : releasePass sl now leases = .ok (some e) rel) :
    watchdogTick sl now prior = .normal (prior + 1) true rel := by
  have hzc : updateZeroCount prior sl.processor.partitionIDsBeingProcessed = prior + 1 := by
    simp [updateZeroCount, hbp]
  have hgt : prior + 1 > idleTickThreshold := by omega
  unfold watchdogTick
  rw [hzc, if_pos hgt, hg]
  dsimp only
  rw [hpass]
  simp

/-- Witness for C3's amended statement: with the stale lease and a
release failing with `TokenInvalidError` (resp. `TransientIOError`), the
tick ends at 61, not 0. -/
theorem c3_amended_witness :
    watchdogTick (c3Fixer (.error .tokenInvalid)) (stalenessWindowNs + 1) 60 =
      .normal 61 true ["0"] ∧
    watchdogTick (c3Fixer (.error .transientIOError)) (stalenessWindowNs + 1) 60 =
      .normal 61 true ["0"] := by
  constructor
  · exact c3_any_release_error_blocks_reset (c3Fixer (.error .tokenInvalid))
      (stalenessWindowNs + 1) 60 [staleLease] .tokenInvalid ["0"] rfl (by decide) rfl (by decide)
  · exact c3_any_release_error_blocks_reset (c3Fixer (.error .transientIOError))
      (stalenessWindowNs + 1) 60 [staleLease] .transientIOError ["0"] rfl (by decide) rfl
      (by decide)

/-- C5: (i) a tick performs a store scan exactly when the updated idle
counter strictly exceeds the threshold; (ii) on a non-panicking tick the
counter ends at zero precisely when activity was observed or a triggered
release pass completed with no error (clean re-arm); (iii) after any tick
ending at zero, the next tick performs no scan — the detector does not
fire on every subsequent idle tick. -/
theorem c5_scan_hysteresis (sl : LeaseFixer) (now : Int) (zc : Nat) :
    ((watchdogTick sl now zc).didScan = true ↔
      updateZeroCount zc sl.processor.partitionIDsBeingProcessed > idleTickThreshold) ∧
    (∀ n d r, watchdogTick sl now zc = .normal n d r →
      (n = 0 ↔ sl.processor.partitionIDsBeingProcessed ≠ [] ∨
        (updateZeroCount zc sl.processor.partitionIDsBeingProcessed > idleTickThreshold ∧
          ∃ leases rel, GetLeases sl = .ok leases ∧
            releasePass sl now leases = .ok none rel))) ∧
    (∀ now2 : Int, (watchdogTick sl now2 0).didScan = false) := by
  have hmain : ∀ (nw : Int) (zc0 : Nat), (watchdogTick sl nw zc0).didScan = true ↔
      updateZeroCount zc0 sl.processor.partitionIDsBeingProcessed > idleTickThreshold := by
    intro nw zc0
    by_cases hgt : updateZeroCount zc0 sl.processor.partitionIDsBeingProcessed > idleTickThreshold
    · simp only [watchdogTick, if_pos hgt]
      cases hg : GetLeases sl with
      | error e => simpa [TickOutcome.didScan] using hgt
      | ok leases =>
        dsimp only
        cases hps : releasePass sl nw leases with
        | ok lastErr rel => simpa [TickOutcome.didScan] using hgt
        | nilDeref rel => simpa [TickOutcome.didScan] using hgt
    · simp only [watchdogTick, if_neg hgt]
      simpa [TickOutcome.didScan] using hgt
  refine ⟨hmain now zc, ?_, ?_⟩
  · intro n d r htick
    simp only [watchdogTick] at htick
    by_cases hgt : updateZeroCount zc sl.processor.partitionIDsBeingProcessed > idleTickThreshold
    · rw [if_pos hgt] at htick
      have hbp : sl.processor.partitionIDsBeingProcessed = [] := by
        by_contra hne
        have hz : updateZeroCount zc sl.processor.partitionIDsBeingProcessed = 0 := by
          have : ¬ sl.processor.partitionIDsBeingProcessed.length = 0 := by simpa using hne
          simp [updateZeroCount, this]
        omega
      cases hg : GetLeases sl with
      | error e =>
        rw [hg] at htick
        dsimp only at htick
        simp only [TickOutcome.normal.injEq] at htick
        obtain ⟨hn, _, _⟩ := htick
        constructor
        · intro h0
          omega
        · rintro (hact | ⟨_, leases, rel, hgok, _⟩)
          · exact absurd hbp hact
          · exact absurd hgok (by simp)
      | ok leases =>
        rw [hg] at htick
        dsimp only at htick
        cases hps : releasePass sl now leases with
        | nilDeref rel2 =>
          rw [hps] at htick
          exact absurd htick (by simp)
        | ok lastErr rel2 =>
          rw [hps] at htick
          dsimp only at htick
          simp only [TickOutcome.normal.injEq] at htick
          obtain ⟨hn, hd, hr⟩ := htick
          cases lastErr with
          | none =>
            simp only [if_true, reduceIte] at hn
            constructor
            · intro _
              exact Or.inr ⟨hgt, leases, rel2, rfl, hps⟩
            · intro _
              omega
          | some e =>
            have hsome : ¬ (some e = (none : Option ReleaseError)) := by simp
            rw [if_neg hsome] at hn
            constructor
            · intro h0
              omega
            · rintro (hact | ⟨_, leases2, rel3, hgok, hps2⟩)
              · exact absurd hbp hact
              · have hl2 : leases2 = leases := by
                  have := hgok.symm
                  simpa using this
                subst hl2
                rw [hps] at hps2
                exact absurd hps2 (by simp)
    · rw [if_neg hgt] at htick
      simp only [TickOutcome.normal.injEq] at htick
      obtain ⟨hn, _, _⟩ := htick
      by_cases hbp : sl.processor.partitionIDsBeingProcessed = []
      · have hz : updateZeroCount zc sl.processor.partitionIDsBeingProcessed = zc + 1 := by
          simp [updateZeroCount, hbp]
        constructor
        · intro h0
          omega
        · rintro (hact | ⟨hgt2, _⟩)
          · exact absurd hbp hact
          · exact absurd hgt2 hgt
      · have hz : updateZeroCount zc sl.processor.partitionIDsBeingProcessed = 0 := by
          have : ¬ sl.processor.partitionIDsBeingProcessed.length = 0 := by simpa using hbp
          simp [updateZeroCount, this]
        constructor
        · intro _
          exact Or.inl hbp
        · intro _
          omega
  · intro now2
    rw [← Bool.not_eq_true, hmain now2 0]
    unfold updateZeroCount idleTickThreshold
    split <;> omega

/-- Witness for C5 on a clean pass: one stale lease, release succeeds,
prior count 60 — the tick scans and re-arms the counter to 0, matching
the characterization. -/
theorem c5_witness :
    ((0 : Nat) = 0 ↔ (c3Fixer (.ok ())).processor.partitionIDsBeingProcessed ≠ [] ∨
      (updateZeroCount 60 (c3Fixer (.ok ())).processor.partitionIDsBeingProcessed >
          idleTickThreshold ∧
        ∃ leases rel, GetLeases (c3Fixer (.ok ())) = .ok leases ∧
          releasePass (c3Fixer (.ok ())) (stalenessWindowNs + 1) leases = .ok none rel)) :=
  (c5_scan_hysteresis (c3Fixer (.ok ())) (stalenessWindowNs + 1) 60).2.1 0 true ["0"]
    (by decide)

/-- A halted watchdog goroutine takes no further step. -/
theorem loopStep_halted (sl : LeaseFixer) (now : Int) (pollTicks : Nat) (s : LoopState)
    (h : s.phase = .halted) : loopStep sl now pollTicks s = s := by
  unfold loopStep
  rw [h]

/-- Iterating from a halted state changes nothing — in particular the
store-call count is frozen forever. -/
theorem loopStep_halted_iterate (sl : LeaseFixer) (now : Int) (pollTicks : Nat) (s : LoopState)
    (h : s.phase = .halted) : ∀ n, (loopStep sl now pollTicks)^[n] s = s := by
  intro n
  induction n with
  | zero => rfl
  | succ k ih => rw [Function.iterate_succ_apply, loopStep_halted sl now pollTicks s h, ih]

/-- No step un-cancels the context. -/
theorem loopStep_cancelled (sl : LeaseFixer) (now : Int) (pollTicks : Nat) (s : LoopState) :
    (loopStep sl now pollTicks s).cancelled = s.cancelled := by
  unfold loopStep
  rcases s with ⟨phase, c, z, sc⟩
  cases phase with
  | check =>
    dsimp only
    split <;> rfl
  | body =>
    dsimp only
    cases watchdogTick sl now z <;> rfl
  | sleeping k => cases k <;> rfl
  | halted => rfl

/-- The sleep phase runs to completion — `k + 1` further steps — before
control returns to the cancellation check; no step inside it exits. -/
theorem loopStep_sleep_run (sl : LeaseFixer) (now : Int) (pollTicks : Nat) :
    ∀ (k : Nat) (s : LoopState), s.phase = .sleeping k →
      (loopStep sl now pollTicks)^[k + 1] s = { s with phase := .check } := by
  intro k
  induction k with
  | zero =>
    intro s h
    rw [Function.iterate_one]
    unfold loopStep
    rw [h]
  | succ j ih =>
    intro s h
    rw [Function.iterate_succ_apply]
    have h1 : loopStep sl now pollTicks s = { s with phase := .sleeping j } := by
      unfold loopStep
      rw [h]
    rw [h1]
    exact ih { s with phase := .sleeping j } rfl

/-- Once some iterate is halted, every later iterate is halted. -/
theorem loopStep_halted_after (sl : LeaseFixer) (now : Int) (pollTicks : Nat) (s : LoopState)
    (m n : Nat) (hmn : m ≤ n) (h : ((loopStep sl now pollTicks)^[m] s).phase = .halted) :
    ((loopStep sl now pollTicks)^[n] s).phase = .halted := by
  have hn : n = (n - m) + m := by omega
  rw [hn, Function.iterate_add_apply,
    loopStep_halted_iterate sl now pollTicks _ h (n - m)]
  exact h

/-- The top-of-iteration select is where a cancelled context is observed:
from the check phase with the context cancelled, the single next step
halts the goroutine. -/
theorem loopStep_check_exit (sl : LeaseFixer) (now : Int) (pollTicks : Nat) (s : LoopState)
    (hph : s.phase = .check) (hc : s.cancelled = true) :
    loopStep sl now pollTicks s = { s with phase := .halted } := by
  unfold loopStep
  rw [hph]
  simp [hc]

/-- C8 fails as stated: cancellation is NOT observed while waiting on the
poll timer.  A cancelled watchdog two units into its sleep merely keeps
sleeping on the next step — it does not exit. -/
theorem c8_counterexample :
    loopStep idleFixer 0 3 ⟨.sleeping 2, true, 0, 0⟩ = ⟨.sleeping 1, true, 0, 0⟩ ∧
    Phase.sleeping 1 ≠ Phase.halted := by
  exact ⟨rfl, by decide⟩

/-- C8 amended: cancellation is observed only at the top-of-iteration
select — once per tick, not during the poll delay, which is an
unconditional sleep — yet a cancelled watchdog still halts within one
poll interval plus one in-flight pass (at most `pollTicks + 3` steps from
any reachable phase, the sleep lasting `pollTicks + 1` steps), and once
halted no further step occurs, in particular no further store calls. -/
theorem c8_shutdown_bound (sl : LeaseFixer) (now : Int) (pollTicks : Nat) (s : LoopState)
    (hc : s.cancelled = true)
    (hph : s.phase = .check ∨ s.phase = .body ∨ ∃ k, k ≤ pollTicks ∧ s.phase = .sleeping k) :
    ((loopStep sl now pollTicks)^[pollTicks + 3] s).phase = .halted ∧
      (∀ t : LoopState, t.phase = .halted →
        ∀ n, ((loopStep sl now pollTicks)^[n] t).storeCalls = t.storeCalls) := by
  constructor
  · rcases hph with hch | hbd | ⟨k, hk, hslp⟩
    · have h1 : ((loopStep sl now pollTicks)^[1] s).phase = .halted := by
        rw [Function.iterate_one, loopStep_check_exit sl now pollTicks s hch hc]
      exact loopStep_halted_after sl now pollTicks s 1 (pollTicks + 3) (by omega) h1
    · cases ht : watchdogTick sl now s.zeroCount with
      | panicked r =>
        have h1 : ((loopStep sl now pollTicks)^[1] s).phase = .halted := by
          rw [Function.iterate_one]
          unfold loopStep
          rw [hbd, ht]
        exact loopStep_halted_after sl now pollTicks s 1 (pollTicks + 3) (by omega) h1
      | normal zc d r =>
        have hs1 : (loopStep sl now pollTicks s).phase = .sleeping pollTicks := by
          unfold loopStep
          rw [hbd, ht]
        have h2 : (loopStep sl now pollTicks)^[pollTicks + 1]
              (loopStep sl now pollTicks s) =
            { loopStep sl now pollTicks s with phase := .check } :=
          loopStep_sleep_run sl now pollTicks pollTicks (loopStep sl now pollTicks s) hs1
        have hc1 : (loopStep sl now pollTicks s).cancelled = true := by
          rw [loopStep_cancelled]
          exact hc
        have hsplit : pollTicks + 3 = (1 + (pollTicks + 1)) + 1 := by omega
        rw [hsplit, Function.iterate_add_apply, Function.iterate_one,
          Function.iterate_add_apply, h2, Function.iterate_one,
          loopStep_check_exit sl now pollTicks
            { loopStep sl now pollTicks s with phase := .check } rfl hc1]
    · have h2 : (loopStep sl now pollTicks)^[k + 1] s = { s with phase := .check } :=
        loopStep_sleep_run sl now pollTicks k s hslp
      have h3 : ((loopStep sl now pollTicks)^[k + 2] s).phase = .halted := by
        have hsplit : k + 2 = 1 + (k + 1) := by omega
        rw [hsplit, Function.iterate_add_apply, h2, Function.iterate_one,
          loopStep_check_exit sl now pollTicks { s with phase := .check } rfl hc]
      exact loopStep_halted_after sl now pollTicks s (k + 2) (pollTicks + 3) (by omega) h3
  · intro t hth n
    rw [loopStep_halted_iterate sl now pollTicks t hth n]

/-- Witness for C8's amended statement: a cancelled watchdog caught in its
body phase with poll interval 1 halts within 1 + 3 steps. -/
theorem c8_witness :
    ((loopStep idleFixer 0 1)^[4] ⟨.body, true, 0, 0⟩).phase = .halted :=
  (c8_shutdown_bound idleFixer 0 1 ⟨.body, true, 0, 0⟩ rfl (Or.inr (Or.inl rfl))).1

end AzureEventHub
